import Mathlib

/-!
Verification development for the CareerFlow estimation engine
(source file src-tauri/src/calculations.rs, data model in
src-tauri/src/models.rs).

Modelling choices. 64-bit floats are modelled as rationals: every
constant in the engine is an exact decimal and the claims are about
branch structure and exact formulas.  Calendar dates are records of
year, month and day together with a proleptic Gregorian day count
(floor-division form of the civil-days algorithm), matching the
chrono day arithmetic used by the source.  Operations the source
performs with unwrap are modelled in Option: the three entry points
return Option values, and the totality theorem shows the none branch
is never taken.  The HashMap grouping of positions by employer is
modelled as an association list in first-occurrence order; the Rust
stable sort by start date is modelled by a stable insertion sort.
-/

structure NaiveDate where
  year : Int
  month : Nat
  day : Nat
deriving DecidableEq

def isLeapYear (y : Int) : Bool :=
  y % 4 == 0 && (y % 100 != 0 || y % 400 == 0)

def daysInMonth (y : Int) (m : Nat) : Nat :=
  if m = 2 then (if isLeapYear y then 29 else 28)
  else if m = 4 || m = 6 || m = 9 || m = 11 then 30
  else 31

/-- Model of chrono NaiveDate.from_ymd_opt: construction with a validity check. -/
def NaiveDate.fromYmd? (y : Int) (m d : Nat) : Option NaiveDate :=
  if 1 ≤ m && m ≤ 12 && 1 ≤ d && d ≤ daysInMonth y m then some ⟨y, m, d⟩ else none

/-- Proleptic Gregorian day number (civil-days algorithm, floor division),
    with day 0 at 1970-01-01 as in chrono. -/
def NaiveDate.toDays (date : NaiveDate) : Int :=
  let y : Int := if date.month ≤ 2 then date.year - 1 else date.year
  let mp : Nat := (date.month + 9) % 12
  365 * y + Int.fdiv y 4 - Int.fdiv y 100 + Int.fdiv y 400
    + (((153 * mp + 2) / 5 : Nat) : Int) + (date.day : Int) - 1 - 719468

/-- Model of (b - a).num_days() on chrono dates. -/
def numDays (a b : NaiveDate) : Int := b.toDays - a.toDays

def monthAbbrev : Nat → String
  | 1 => "Jan" | 2 => "Feb" | 3 => "Mar" | 4 => "Apr"
  | 5 => "May" | 6 => "Jun" | 7 => "Jul" | 8 => "Aug"
  | 9 => "Sep" | 10 => "Oct" | 11 => "Nov" | 12 => "Dec"
  | _ => "???"

/-- Model of date.format("%b %Y"). -/
def formatMonthYear (d : NaiveDate) : String :=
  monthAbbrev d.month ++ " " ++ toString d.year

inductive SeniorityLevel where
  | Entry | Junior | Mid | Senior | Lead | Manager | Director | Executive
deriving DecidableEq

inductive EmploymentType where
  | Permanent | Contract | Casual
deriving DecidableEq

inductive OvertimeAppetite where
  | None | Minimal | Moderate | High | Extreme
deriving DecidableEq

inductive FIFOTolerance where
  | None | Limited | Regular | Extensive
deriving DecidableEq

inductive TravelTolerance where
  | None | Local | Regional | National | International
deriving DecidableEq

inductive AustralianState where
  | NSW | VIC | QLD | WA | SA | TAS | ACT | NT
deriving DecidableEq

inductive InsightCategory where
  | Underpaid | FairlyPaid | Overpaid | OvertimeHeavy | LoyaltyTax
  | MarketOpportunity | SkillsGap
deriving DecidableEq

structure CareerPreferences where
  employment_type_preference : EmploymentType
  fifo_tolerance : FIFOTolerance
  travel_tolerance : TravelTolerance
  overtime_appetite : OvertimeAppetite
  privacy_acknowledged : Bool
  disclaimer_acknowledged : Bool
deriving DecidableEq

structure UserProfile where
  first_name : String
  last_name : String
  date_of_birth : NaiveDate
  state : AustralianState
  industry : String
  career_preferences : CareerPreferences
deriving DecidableEq

structure Position where
  employer_name : String
  job_title : String
  employment_type : EmploymentType
  start_date : NaiveDate
  end_date : Option NaiveDate
  seniority_level : SeniorityLevel
  core_responsibilities : String
  tools_systems_skills : List String
  achievements : List String
deriving DecidableEq

structure EarningsSnapshot where
  date : NaiveDate
  base_annual : Rat
  actual_annual : Rat
  total_with_super : Rat
  effective_hourly_rate : Rat
deriving DecidableEq

structure HoursEarningsPoint where
  year : Int
  total_hours_worked : Rat
  total_earnings : Rat
  overtime_percentage : Rat
deriving DecidableEq

structure SuperSnapshot where
  financial_year : String
  employer_contributions : Rat
  personal_contributions : Rat
  total_super_balance : Rat
deriving DecidableEq

structure EarningsInsight where
  category : InsightCategory
  title : String
  description : String
  confidence_level : Rat
  data_points : List String
deriving DecidableEq

structure EarningsAnalysis where
  current_total_compensation : Rat
  current_effective_hourly_rate : Rat
  income_percentile : Rat
  loyalty_tax_annual : Rat
  loyalty_tax_cumulative : Rat
  earnings_over_time : List EarningsSnapshot
  hours_vs_earnings : List HoursEarningsPoint
  super_trajectory : List SuperSnapshot
  insights : List EarningsInsight
deriving DecidableEq

structure TenureBlock where
  employer_name : String
  start_date : NaiveDate
  end_date : Option NaiveDate
  years_of_service : Rat
  actual_progression : Rat
  market_expected_progression : Rat
  loyalty_tax_impact : Rat
deriving DecidableEq

structure MarketComparison where
  industry_average_growth : Rat
  role_level_growth : Rat
  cpi_adjusted_growth : Rat
deriving DecidableEq

structure YearlyLoyaltyTax where
  year : Int
  loyalty_tax_amount : Rat
  missed_opportunities : List String
deriving DecidableEq

structure LoyaltyTaxAnalysis where
  tenure_blocks : List TenureBlock
  market_comparison : MarketComparison
  annual_loyalty_tax : List YearlyLoyaltyTax
  cumulative_loyalty_tax : Rat
  confidence_level : Rat
deriving DecidableEq

structure ProfileSummary where
  name : String
  age : Int
  location : String
  industry : String
  experience_years : Rat
  seniority_level : SeniorityLevel
deriving DecidableEq

structure ResumePosition where
  employer : String
  title : String
  duration : String
  responsibilities : List String
  achievements : List String
  skills_used : List String
deriving DecidableEq

structure CompensationSummary where
  current_base : Rat
  current_total : Rat
  career_earnings_total : Rat
  average_annual_increase : Rat
deriving DecidableEq

structure ResumeExport where
  profile_summary : ProfileSummary
  career_timeline : List ResumePosition
  achievements : List String
  skills_and_tools : List String
  compensation_summary : CompensationSummary
  target_preferences : CareerPreferences
deriving DecidableEq

/-- The fixed analysis cutoff date 2024-12-31; each unwrap of
    from_ymd_opt(2024, 12, 31) in the source is modelled by a bind on this. -/
def cutoffDate? : Option NaiveDate := NaiveDate.fromYmd? 2024 12 31

/-- MARKET_GROWTH_RATES constant table. -/
def MARKET_GROWTH_RATES : List (SeniorityLevel × Rat) :=
  [(.Entry, 0.04), (.Junior, 0.05), (.Mid, 0.06), (.Senior, 0.07),
   (.Lead, 0.08), (.Manager, 0.08), (.Director, 0.09), (.Executive, 0.10)]

/-- Lookup in MARKET_GROWTH_RATES by seniority with the 0.05 default,
    as in calculate_loyalty_tax. -/
def marketGrowthRate (s : SeniorityLevel) : Rat :=
  ((MARKET_GROWTH_RATES.find? fun e => decide (e.1 = s)).map (·.2)).getD 0.05

/-- Position::base_salary_estimate from the PositionExt impl. -/
def base_salary_estimate (pos : Position) : Rat :=
  let base : Rat :=
    match pos.seniority_level with
    | .Entry => 60000 | .Junior => 75000 | .Mid => 95000 | .Senior => 120000
    | .Lead => 140000 | .Manager => 130000 | .Director => 180000 | .Executive => 250000
  let employment_adjustment : Rat :=
    match pos.employment_type with
    | .Permanent => 1.0 | .Contract => 1.2 | .Casual => 1.25
  base * employment_adjustment

def isPrefixList (pat hay : List Char) : Bool :=
  match pat, hay with
  | [], _ => true
  | _ :: _, [] => false
  | a :: as, b :: bs => a == b && isPrefixList as bs

/-- Model of str::contains with a string pattern, on character lists. -/
def containsSub (hay pat : List Char) : Bool :=
  match hay with
  | [] => pat.isEmpty
  | _ :: rest => isPrefixList pat hay || containsSub rest pat

/-- Model of str::to_lowercase (ASCII case mapping), as a character list. -/
def lowerChars (s : String) : List Char := s.toList.map Char.toLower

/-- Seniority factor of estimate_overtime_multiplier. -/
def baseMultiplier (s : SeniorityLevel) : Rat :=
  match s with
  | .Entry => 1.05 | .Junior => 1.10 | .Mid => 1.15 | .Senior => 1.20
  | .Lead => 1.25 | .Manager => 1.10 | .Director => 1.05 | .Executive => 1.05

/-- Industry factor of estimate_overtime_multiplier (case-insensitive
    substring match on the profile industry; absent profile gives 1.0). -/
def industryAdjustment (profile : Option UserProfile) : Rat :=
  match profile with
  | none => 1.0
  | some profile =>
    let s := lowerChars profile.industry
    if containsSub s "mining".toList then 1.30
    else if containsSub s "construction".toList then 1.25
    else if containsSub s "engineering".toList then 1.20
    else if containsSub s "it".toList || containsSub s "technology".toList then 1.15
    else 1.0

/-- Personal overtime-appetite factor of estimate_overtime_multiplier. -/
def personalAdjustment (profile : Option UserProfile) : Rat :=
  match profile with
  | none => 1.0
  | some profile =>
    match profile.career_preferences.overtime_appetite with
    | .None => 0.95 | .Minimal => 1.0 | .Moderate => 1.1 | .High => 1.25 | .Extreme => 1.4

def estimate_overtime_multiplier (pos : Position) (profile : Option UserProfile) : Rat :=
  baseMultiplier pos.seniority_level * industryAdjustment profile * personalAdjustment profile

def estimate_annual_hours (pos : Position) : Rat :=
  let standard_weekly : Rat := 38.0
  let weeks_per_year : Rat := 52.0
  let hours_multiplier : Rat :=
    match pos.employment_type with
    | .Permanent => 1.0 | .Contract => 1.1 | .Casual => 0.8
  standard_weekly * weeks_per_year * hours_multiplier

/-- calculate_position_earnings: (actual annual, effective hourly). -/
def calculate_position_earnings (pos : Position) (profile : Option UserProfile) : Rat × Rat :=
  let base_annual := base_salary_estimate pos
  let overtime_multiplier := estimate_overtime_multiplier pos profile
  let actual_annual := base_annual * overtime_multiplier
  let annual_hours := estimate_annual_hours pos
  let effective_hourly := if 0 < annual_hours then actual_annual / annual_hours else 0
  (actual_annual, effective_hourly)

def has_overtime_heavy_earnings (positions : List Position) : Bool :=
  positions.any fun position => decide ((1.2 : Rat) < estimate_overtime_multiplier position none)

def calculate_industry_median (industry : String) : Rat :=
  let s := lowerChars industry
  if containsSub s "mining".toList then 125000.0
  else if containsSub s "it".toList || containsSub s "technology".toList then 110000.0
  else if containsSub s "engineering".toList then 105000.0
  else if containsSub s "construction".toList then 95000.0
  else if containsSub s "healthcare".toList then 85000.0
  else if containsSub s "education".toList then 80000.0
  else if containsSub s "finance".toList then 100000.0
  else 90000.0

def calculate_income_percentile (income : Rat) (industry : String)
    (_state : AustralianState) : Rat :=
  let industry_median := calculate_industry_median industry
  if income ≤ industry_median * 0.75 then 25.0
  else if income ≤ industry_median then 50.0
  else if income ≤ industry_median * 1.25 then 75.0
  else 90.0

/-- The classifier the specification describes: a step function of the
    ratio of current total compensation to the industry median. -/
def percentileOfRatio (r : Rat) : Rat :=
  if r ≤ 0.75 then 25.0
  else if r ≤ 1 then 50.0
  else if r ≤ 1.25 then 75.0
  else 90.0

def calculate_total_experience (cutoff : NaiveDate) (positions : List Position) : Rat :=
  let total_days : Int :=
    (positions.map fun p => numDays p.start_date (p.end_date.getD cutoff)).sum
  (total_days : Rat) / 365.25

/-- Round to nearest integer, ties to even, as in the {:.N} float format. -/
def roundHalfEven (q : Rat) : Int :=
  let f := q.floor
  let frac := q - (f : Rat)
  if frac < 1/2 then f
  else if 1/2 < frac then f + 1
  else if f % 2 = 0 then f else f + 1

def padTwo (n : Nat) : String := if n < 10 then "0" ++ toString n else toString n

/-- Model of format with {:.2}. -/
def fmt2 (q : Rat) : String :=
  let c := roundHalfEven (q * 100)
  let sign := if c < 0 then "-" else ""
  let a := c.natAbs
  sign ++ toString (a / 100) ++ "." ++ padTwo (a % 100)

/-- Model of format with {:.0}. -/
def fmt0 (q : Rat) : String := toString (roundHalfEven q)

def overtimeInsight (current_hourly : Rat) : EarningsInsight :=
  { category := .OvertimeHeavy
    title := "Overtime-Heavy Compensation Detected"
    description := "Your earnings are significantly boosted by overtime. Your base rate may appear below market, but actual earnings place you higher."
    confidence_level := 0.85
    data_points :=
      ["Effective hourly rate: $" ++ fmt2 current_hourly ++ "/hr",
       "Consider roles with better base rates if overtime burnout is a concern"] }

def underpaidInsight (percentile current_total : Rat) (industry : String) : EarningsInsight :=
  { category := .Underpaid
    title := "Earnings Below Market Median"
    description := "You\x27re in the " ++ fmt0 percentile ++ "th percentile for your industry and location. Consider negotiating or exploring market opportunities."
    confidence_level := 0.75
    data_points :=
      ["Current total: $" ++ fmt0 current_total,
       "Industry median: $" ++ fmt0 (calculate_industry_median industry)] }

def overpaidInsight (percentile current_total : Rat) : EarningsInsight :=
  { category := .Overpaid
    title := "Earnings Above Market"
    description := "You\x27re in the " ++ fmt0 percentile ++ "th percentile for your industry and location."
    confidence_level := 0.75
    data_points :=
      ["Current total: $" ++ fmt0 current_total,
       "You\x27re well compensated compared to peers"] }

/-- The two market-comparison insights of calculate_earnings_analysis. -/
def percentileInsights (percentile current_total : Rat) (industry : String) :
    List EarningsInsight :=
  if percentile < 25 then [underpaidInsight percentile current_total industry]
  else if 75 < percentile then [overpaidInsight percentile current_total]
  else []

/-- Insight generation of calculate_earnings_analysis: only when a
    profile is present; overtime insight first, then market comparison. -/
def insightsFor (positions : List Position) (profile : Option UserProfile)
    (current_total current_hourly : Rat) : List EarningsInsight :=
  match profile with
  | none => []
  | some profile =>
    (if has_overtime_heavy_earnings positions then [overtimeInsight current_hourly] else [])
      ++ percentileInsights
          (calculate_income_percentile current_total profile.industry profile.state)
          current_total profile.industry

/-- Current compensation pair of calculate_earnings_analysis: the first
    list element is the current position, absent positions give zeros. -/
def currentEarnings (positions : List Position) (profile : Option UserProfile) : Rat × Rat :=
  match positions.head? with
  | some pos => calculate_position_earnings pos profile
  | none => (0, 0)

def earningsSnapshotOf (profile : Option UserProfile) (position : Position) : EarningsSnapshot :=
  let annual_earnings := (calculate_position_earnings position profile).1
  { date := position.start_date
    base_annual := base_salary_estimate position
    actual_annual := annual_earnings
    total_with_super := annual_earnings * 1.11
    effective_hourly_rate := (calculate_position_earnings position profile).2 }

/-- Body of calculate_earnings_analysis after the cutoff-date unwrap. -/
def earningsBody (positions : List Position) (profile : Option UserProfile) : EarningsAnalysis :=
  let current_total := (currentEarnings positions profile).1
  let current_hourly := (currentEarnings positions profile).2
  { current_total_compensation := current_total
    current_effective_hourly_rate := current_hourly
    income_percentile :=
      calculate_income_percentile current_total
        ((profile.map (·.industry)).getD "Unknown")
        ((profile.map (·.state)).getD AustralianState.NSW)
    loyalty_tax_annual := 0.0
    loyalty_tax_cumulative := 0.0
    earnings_over_time := positions.map (earningsSnapshotOf profile)
    hours_vs_earnings := []
    super_trajectory := []
    insights := insightsFor positions profile current_total current_hourly }

def calculate_earnings_analysis (positions : List Position)
    (profile : Option UserProfile) : Option EarningsAnalysis :=
  match cutoffDate? with
  | none => none
  | some _ => some (earningsBody positions profile)

/-- Stable insertion by start date: a new element goes after every
    element whose start date is not greater. -/
def insertByStart (p : Position) : List Position → List Position
  | [] => [p]
  | q :: l =>
    if p.start_date.toDays < q.start_date.toDays then p :: q :: l
    else q :: insertByStart p l

/-- Model of the stable sort_by_key on start_date. -/
def sortByStartDate (l : List Position) : List Position :=
  l.foldl (fun acc p => insertByStart p acc) []

/-- Model of the HashMap employer grouping, as an association list in
    first-occurrence order; each position is appended to its group. -/
def addToGroup (groups : List (String × List Position)) (p : Position) :
    List (String × List Position) :=
  match groups with
  | [] => [(p.employer_name, [p])]
  | (name, ps) :: rest =>
    if name = p.employer_name then (name, ps ++ [p]) :: rest
    else (name, ps) :: addToGroup rest p

def groupByEmployer (positions : List Position) : List (String × List Position) :=
  positions.foldl addToGroup []

/-- Per-employer-group body of the calculate_loyalty_tax loop.  The outer
    Option models the unwraps on the first and last sorted position; the
    inner Option is none when the group is skipped (tenure of at most two
    years). -/
def processGroup (cutoff : NaiveDate) (employer : String) (posList : List Position) :
    Option (Option TenureBlock) :=
  match (sortByStartDate posList).head?, (sortByStartDate posList).getLast? with
  | some firstPos, some lastPos =>
    let start_date := firstPos.start_date
    let end_date := lastPos.end_date.getD cutoff
    let tenure_years : Rat := (numDays start_date end_date : Rat) / 365.25
    if 2 < tenure_years then
      let first_salary := base_salary_estimate firstPos
      let last_salary := base_salary_estimate lastPos
      let actual_progression :=
        if 0 < first_salary then ((last_salary - first_salary) / first_salary) / tenure_years
        else 0
      let market_expected := marketGrowthRate lastPos.seniority_level
      let loyalty_tax_rate := market_expected - actual_progression
      let loyalty_tax_impact :=
        if 0 < loyalty_tax_rate then last_salary * loyalty_tax_rate * tenure_years else 0
      some (some
        { employer_name := employer
          start_date := start_date
          end_date := some end_date
          years_of_service := tenure_years
          actual_progression := actual_progression * 100
          market_expected_progression := market_expected * 100
          loyalty_tax_impact := loyalty_tax_impact })
    else some none
  | _, _ => none

/-- The loop of calculate_loyalty_tax over employer groups, producing the
    tenure blocks in group order together with the accumulated tax. -/
def loyaltyLoop (cutoff : NaiveDate) :
    List (String × List Position) → Option (List TenureBlock × Rat)
  | [] => some ([], 0)
  | g :: rest =>
    match processGroup cutoff g.1 g.2, loyaltyLoop cutoff rest with
    | some maybeBlock, some (blocks, cum) =>
      match maybeBlock with
      | some b => some (b :: blocks, b.loyalty_tax_impact + cum)
      | none => some (blocks, cum)
    | _, _ => none

def calculate_loyalty_tax (positions : List Position) : Option LoyaltyTaxAnalysis :=
  match cutoffDate? with
  | none => none
  | some cutoff =>
    match loyaltyLoop cutoff (groupByEmployer positions) with
    | none => none
    | some (tenure_blocks, cumulative_tax) =>
      some
        { tenure_blocks := tenure_blocks
          market_comparison :=
            { industry_average_growth := 0.06
              role_level_growth := 0.07
              cpi_adjusted_growth := 0.03 }
          annual_loyalty_tax := []
          cumulative_loyalty_tax := cumulative_tax
          confidence_level := if tenure_blocks.isEmpty then 0.0 else 0.75 }

/-- The tenure blocks emitted by calculate_loyalty_tax. -/
def loyaltyBlocks (positions : List Position) : List TenureBlock :=
  match calculate_loyalty_tax positions with
  | some a => a.tenure_blocks
  | none => []

/-- The cumulative loyalty tax reported by calculate_loyalty_tax. -/
def loyaltyCumulative (positions : List Position) : Rat :=
  match calculate_loyalty_tax positions with
  | some a => a.cumulative_loyalty_tax
  | none => 0

def format_duration (start finish : NaiveDate) : String :=
  let months : Int :=
    (finish.year - start.year) * 12 + ((finish.month : Int) - 1 - ((start.month : Int) - 1))
  let years := Int.tdiv months 12
  let remaining_months := Int.tmod months 12
  if 0 < years then
    if 0 < remaining_months then
      toString years ++ "y " ++ toString remaining_months ++ "m"
    else toString years ++ "y"
  else toString remaining_months ++ "m"

/-- Duration string of one resume position. -/
def durationOf (pos : Position) : String :=
  match pos.end_date with
  | some finish => format_duration pos.start_date finish
  | none => formatMonthYear pos.start_date ++ " - Present"

def resumePositionOf (pos : Position) : ResumePosition :=
  { employer := pos.employer_name
    title := pos.job_title
    duration := durationOf pos
    responsibilities :=
      ((pos.core_responsibilities.splitOn "\n").map String.trim).filter fun s => !s.isEmpty
    achievements := pos.achievements
    skills_used := pos.tools_systems_skills }

/-- The average annual increase of calculate_compensation_summary; Option
    models the unwraps on the list endpoints under the length guard. -/
def avgIncrease (cutoff : NaiveDate) (positions : List Position) : Option Rat :=
  if 1 < positions.length then
    match positions.getLast?, positions.head? with
    | some lastPos, some headPos =>
      let first_salary := base_salary_estimate lastPos
      let last_salary := base_salary_estimate headPos
      let years := calculate_total_experience cutoff positions
      some (if 0 < years ∧ 0 < first_salary then
              ((last_salary - first_salary) / first_salary) / years * 100
            else 0)
    | _, _ => none
  else some 0

def calculate_compensation_summary (cutoff : NaiveDate) (positions : List Position) :
    Option CompensationSummary :=
  if positions.isEmpty then
    some { current_base := 0, current_total := 0,
           career_earnings_total := 0, average_annual_increase := 0 }
  else
    match positions.head? with
    | none => none
    | some firstPos =>
      let current_base := base_salary_estimate firstPos
      let current_total := current_base * estimate_overtime_multiplier firstPos none
      let career_total :=
        (positions.map fun p =>
          base_salary_estimate p * estimate_overtime_multiplier p none).sum
      match avgIncrease cutoff positions with
      | none => none
      | some avg =>
        some { current_base := current_base
               current_total := current_total
               career_earnings_total := career_total
               average_annual_increase := avg }

def stateName (s : AustralianState) : String :=
  match s with
  | .NSW => "NSW" | .VIC => "VIC" | .QLD => "QLD" | .WA => "WA"
  | .SA => "SA" | .TAS => "TAS" | .ACT => "ACT" | .NT => "NT"

def defaultPreferences : CareerPreferences :=
  { employment_type_preference := .Permanent
    fifo_tolerance := .None
    travel_tolerance := .None
    overtime_appetite := .Moderate
    privacy_acknowledged := false
    disclaimer_acknowledged := false }

def profileSummaryOf (cutoff : NaiveDate) (positions : List Position)
    (profile : Option UserProfile) : ProfileSummary :=
  match profile with
  | some p =>
    { name := p.first_name ++ " " ++ p.last_name
      age := cutoff.year - p.date_of_birth.year
      location := stateName p.state
      industry := p.industry
      experience_years := calculate_total_experience cutoff positions
      seniority_level := ((positions.head?.map (·.seniority_level)).getD .Entry) }
  | none =>
    { name := "Unknown"
      age := 0
      location := "Unknown"
      industry := "Unknown"
      experience_years := 0.0
      seniority_level := .Entry }

def generate_resume_export (positions : List Position) (profile : Option UserProfile) :
    Option ResumeExport :=
  match cutoffDate? with
  | none => none
  | some cutoff =>
    match calculate_compensation_summary cutoff positions with
    | none => none
    | some compensation_summary =>
      some
        { profile_summary := profileSummaryOf cutoff positions profile
          career_timeline := positions.map resumePositionOf
          achievements := (positions.map (·.achievements)).flatten
          skills_and_tools := (positions.map (·.tools_systems_skills)).flatten
          compensation_summary := compensation_summary
          target_preferences :=
            (profile.map (·.career_preferences)).getD defaultPreferences }

/-! ### Helper lemmas -/

theorem cutoffDate_eq : cutoffDate? = some ⟨2024, 12, 31⟩ := rfl

theorem calculate_earnings_analysis_eq (ps : List Position) (prof : Option UserProfile) :
    calculate_earnings_analysis ps prof = some (earningsBody ps prof) := rfl

theorem industry_median_pos (industry : String) :
    (0 : Rat) < calculate_industry_median industry := by
  simp only [calculate_industry_median]
  split_ifs <;> norm_num

theorem base_salary_estimate_pos (pos : Position) : (0 : Rat) < base_salary_estimate pos := by
  unfold base_salary_estimate
  cases pos.seniority_level <;> cases pos.employment_type <;> norm_num

/-! ### C1: income percentile is a step function of the income ratio -/

/-- C1: for every income and industry, calculate_income_percentile is the
    step function of the ratio income over industry median with buckets
    25, 50, 75, 90 and inclusive upper boundaries; incomes above 1.25
    times the median give exactly 90 and the result never exceeds 90; the
    income_percentile field of every earnings analysis is that value. -/
theorem income_percentile_step_function :
    (∀ (income : Rat) (industry : String) (st : AustralianState),
        calculate_income_percentile income industry st
          = percentileOfRatio (income / calculate_industry_median industry)
        ∧ (calculate_industry_median industry * 1.25 < income →
            calculate_income_percentile income industry st = 90)
        ∧ calculate_income_percentile income industry st ≤ 90)
    ∧ (∀ (ps : List Position) (prof : Option UserProfile) (a : EarningsAnalysis),
        calculate_earnings_analysis ps prof = some a →
          a.income_percentile
            = calculate_income_percentile a.current_total_compensation
                ((prof.map (·.industry)).getD "Unknown")
                ((prof.map (·.state)).getD AustralianState.NSW)) := by
  constructor
  · intro income industry st
    have hm : (0 : Rat) < calculate_industry_median industry := industry_median_pos industry
    have h1 : income / calculate_industry_median industry ≤ 0.75
        ↔ income ≤ calculate_industry_median industry * 0.75 := by
      rw [div_le_iff₀ hm, mul_comm]
    have h2 : income / calculate_industry_median industry ≤ 1
        ↔ income ≤ calculate_industry_median industry := by
      rw [div_le_iff₀ hm, one_mul]
    have h3 : income / calculate_industry_median industry ≤ 1.25
        ↔ income ≤ calculate_industry_median industry * 1.25 := by
      rw [div_le_iff₀ hm, mul_comm]
    refine ⟨?_, ?_, ?_⟩
    · unfold calculate_income_percentile percentileOfRatio
      rw [if_congr h1 rfl (if_congr h2 rfl (if_congr h3 rfl rfl))]
    · intro hgt
      simp only [calculate_income_percentile]
      rw [if_neg (by linarith), if_neg (by linarith), if_neg (by linarith)]
      norm_num
    · simp only [calculate_income_percentile]
      split_ifs <;> norm_num
  · intro ps prof a h
    rw [calculate_earnings_analysis_eq] at h
    cases h
    rfl

/-- Witness for the hypothesis-bearing parts of
    income_percentile_step_function at a concrete input. -/
theorem income_percentile_step_function_witness :
    calculate_industry_median "finance" * 1.25 < 200000
    ∧ calculate_income_percentile 200000 "finance" AustralianState.NSW = 90 := by
  have h1 : calculate_industry_median "finance" = 100000 := by
    simp only [calculate_industry_median,
      show containsSub (lowerChars "finance") "mining".toList = false from by decide,
      show containsSub (lowerChars "finance") "it".toList = false from by decide,
      show containsSub (lowerChars "finance") "technology".toList = false from by decide,
      show containsSub (lowerChars "finance") "engineering".toList = false from by decide,
      show containsSub (lowerChars "finance") "construction".toList = false from by decide,
      show containsSub (lowerChars "finance") "healthcare".toList = false from by decide,
      show containsSub (lowerChars "finance") "education".toList = false from by decide,
      show containsSub (lowerChars "finance") "finance".toList = true from by decide]
    norm_num
  refine ⟨by rw [h1]; norm_num, ?_⟩
  exact (income_percentile_step_function.1 200000 "finance" AustralianState.NSW).2.1
    (by rw [h1]; norm_num)

/-! ### C6: the overtime multiplier is a product of three factors -/

/-- C6: for every position and optional profile the overtime multiplier
    is the product of the seniority base factor, the industry factor and
    the personal overtime-appetite factor; with no profile the last two
    are 1.0 and the multiplier equals the base factor alone, which for
    Senior seniority is 1.20. -/
theorem overtime_multiplier_three_factors (pos : Position) (profile : Option UserProfile) :
    estimate_overtime_multiplier pos profile
      = baseMultiplier pos.seniority_level * industryAdjustment profile
          * personalAdjustment profile
    ∧ industryAdjustment (none : Option UserProfile) = 1
    ∧ personalAdjustment (none : Option UserProfile) = 1
    ∧ estimate_overtime_multiplier pos none = baseMultiplier pos.seniority_level
    ∧ estimate_overtime_multiplier { pos with seniority_level := .Senior } none = 1.20 := by
  refine ⟨rfl, by norm_num [industryAdjustment], by norm_num [personalAdjustment], ?_, ?_⟩
  · show baseMultiplier pos.seniority_level * industryAdjustment none * personalAdjustment none
      = baseMultiplier pos.seniority_level
    norm_num [industryAdjustment, personalAdjustment]
  · show baseMultiplier SeniorityLevel.Senior * industryAdjustment none * personalAdjustment none
      = 1.20
    norm_num [industryAdjustment, personalAdjustment, baseMultiplier]

/-! ### C10: the hours and super vectors are never populated -/

/-- C10: for every position list and optional profile the earnings
    analysis has empty hours_vs_earnings and super_trajectory vectors. -/
theorem earnings_vectors_always_empty (ps : List Position) (prof : Option UserProfile) :
    (calculate_earnings_analysis ps prof).map (fun a => a.hours_vs_earnings) = some []
    ∧ (calculate_earnings_analysis ps prof).map (fun a => a.super_trajectory) = some [] :=
  ⟨rfl, rfl⟩

/-! ### Loyalty-tax structure lemmas -/

theorem insertByStart_length (p : Position) (l : List Position) :
    (insertByStart p l).length = l.length + 1 := by
  induction l with
  | nil => rfl
  | cons q l ih =>
    simp only [insertByStart]
    split_ifs <;> simp [ih]

theorem foldl_insert_length (l acc : List Position) :
    (l.foldl (fun acc p => insertByStart p acc) acc).length = acc.length + l.length := by
  induction l generalizing acc with
  | nil => simp
  | cons p l ih => simp [List.foldl_cons, ih, insertByStart_length]; omega

theorem sortByStartDate_ne_nil (l : List Position) (h : l ≠ []) :
    sortByStartDate l ≠ [] := by
  intro hs
  have hlen : (sortByStartDate l).length = l.length := by
    simpa [sortByStartDate] using foldl_insert_length l []
  rw [hs] at hlen
  exact h (List.eq_nil_of_length_eq_zero hlen.symm)

theorem addToGroup_ne_nil (groups : List (String × List Position)) (p : Position)
    (h : ∀ g ∈ groups, g.2 ≠ []) : ∀ g ∈ addToGroup groups p, g.2 ≠ [] := by
  induction groups with
  | nil =>
    intro g hg
    simp only [addToGroup, List.mem_singleton] at hg
    subst hg
    simp
  | cons q rest ih =>
    obtain ⟨name, ps⟩ := q
    intro g hg
    simp only [addToGroup] at hg
    split_ifs at hg with hn
    · rcases List.mem_cons.mp hg with hg | hg
      · subst hg; simp
      · exact h g (List.mem_cons_of_mem _ hg)
    · rcases List.mem_cons.mp hg with hg | hg
      · subst hg
        exact h (name, ps) (List.mem_cons_self _ _)
      · exact ih (fun x hx => h x (List.mem_cons_of_mem _ hx)) g hg

theorem groupByEmployer_ne_nil (ps : List Position) :
    ∀ g ∈ groupByEmployer ps, g.2 ≠ [] := by
  suffices h : ∀ (l : List Position) (acc : List (String × List Position)),
      (∀ g ∈ acc, g.2 ≠ []) → ∀ g ∈ l.foldl addToGroup acc, g.2 ≠ [] by
    exact h ps [] (by simp)
  intro l
  induction l with
  | nil => intro acc hacc; simpa using hacc
  | cons p rest ih =>
    intro acc hacc
    simp only [List.foldl_cons]
    exact ih (addToGroup acc p) (addToGroup_ne_nil acc p hacc)

theorem processGroup_isSome (cutoff : NaiveDate) (emp : String) (pl : List Position)
    (h : pl ≠ []) : (processGroup cutoff emp pl).isSome := by
  have hs : sortByStartDate pl ≠ [] := sortByStartDate_ne_nil pl h
  obtain ⟨f, hf⟩ := Option.isSome_iff_exists.mp (List.head?_isSome.mpr hs)
  obtain ⟨la, hl⟩ := Option.isSome_iff_exists.mp (List.getLast?_isSome.mpr hs)
  simp only [processGroup, hf, hl]
  split_ifs <;> rfl

theorem loyaltyLoop_isSome (cutoff : NaiveDate) (groups : List (String × List Position))
    (h : ∀ g ∈ groups, g.2 ≠ []) : (loyaltyLoop cutoff groups).isSome := by
  induction groups with
  | nil => rfl
  | cons g rest ih =>
    have h1 : (processGroup cutoff g.1 g.2).isSome :=
      processGroup_isSome cutoff g.1 g.2 (h g (List.mem_cons_self _ _))
    have h2 : (loyaltyLoop cutoff rest).isSome :=
      ih (fun x hx => h x (List.mem_cons_of_mem _ hx))
    obtain ⟨mb, hb⟩ := Option.isSome_iff_exists.mp h1
    obtain ⟨⟨bs, cum⟩, hr⟩ := Option.isSome_iff_exists.mp h2
    simp only [loyaltyLoop, hb, hr]
    cases mb <;> rfl

theorem calculate_loyalty_tax_spec (ps : List Position) (blocks : List TenureBlock)
    (cum : Rat) (h : loyaltyLoop ⟨2024, 12, 31⟩ (groupByEmployer ps) = some (blocks, cum)) :
    calculate_loyalty_tax ps = some
      { tenure_blocks := blocks
        market_comparison :=
          { industry_average_growth := 0.06
            role_level_growth := 0.07
            cpi_adjusted_growth := 0.03 }
        annual_loyalty_tax := []
        cumulative_loyalty_tax := cum
        confidence_level := if blocks.isEmpty then 0.0 else 0.75 } := by
  unfold calculate_loyalty_tax
  rw [cutoffDate_eq]
  simp only [h]

theorem loyaltyLoop_total (ps : List Position) :
    ∃ blocks cum, loyaltyLoop ⟨2024, 12, 31⟩ (groupByEmployer ps) = some (blocks, cum) := by
  have h := loyaltyLoop_isSome ⟨2024, 12, 31⟩ (groupByEmployer ps) (groupByEmployer_ne_nil ps)
  obtain ⟨⟨blocks, cum⟩, hr⟩ := Option.isSome_iff_exists.mp h
  exact ⟨blocks, cum, hr⟩

theorem processGroup_block (cutoff : NaiveDate) (emp : String) (pl : List Position)
    (b : TenureBlock) (h : processGroup cutoff emp pl = some (some b)) :
    2 < b.years_of_service ∧ 0 ≤ b.loyalty_tax_impact := by
  simp only [processGroup] at h
  cases hf : (sortByStartDate pl).head? with
  | none => rw [hf] at h; cases hg : (sortByStartDate pl).getLast? <;> rw [hg] at h <;> cases h
  | some firstPos =>
    cases hg : (sortByStartDate pl).getLast? with
    | none => rw [hf, hg] at h; cases h
    | some lastPos =>
      rw [hf, hg] at h
      dsimp only at h
      split_ifs at h with ht hp hr hr
      · -- progression positive, rate positive branch
        cases Option.some.inj (Option.some.inj h)
        refine ⟨ht, ?_⟩
        have h1 := base_salary_estimate_pos lastPos
        have h2 : (0:Rat) < (numDays firstPos.start_date (lastPos.end_date.getD cutoff) : Rat) / 365.25 := by
          linarith
        exact le_of_lt (mul_pos (mul_pos h1 hr) h2)
      · cases Option.some.inj (Option.some.inj h)
        exact ⟨ht, le_refl 0⟩
      · cases Option.some.inj (Option.some.inj h)
        refine ⟨ht, ?_⟩
        have h1 := base_salary_estimate_pos lastPos
        have h2 : (0:Rat) < (numDays firstPos.start_date (lastPos.end_date.getD cutoff) : Rat) / 365.25 := by
          linarith
        exact le_of_lt (mul_pos (mul_pos h1 hr) h2)
      · cases Option.some.inj (Option.some.inj h)
        exact ⟨ht, le_refl 0⟩
      · simp at h

theorem loyaltyLoop_blocks (cutoff : NaiveDate) (groups : List (String × List Position))
    (blocks : List TenureBlock) (cum : Rat)
    (h : loyaltyLoop cutoff groups = some (blocks, cum)) :
    ∀ b ∈ blocks, 2 < b.years_of_service ∧ 0 ≤ b.loyalty_tax_impact := by
  induction groups generalizing blocks cum with
  | nil =>
    simp only [loyaltyLoop] at h
    cases Option.some.inj h
    intro b hb
    cases hb
  | cons g rest ih =>
    simp only [loyaltyLoop] at h
    cases hpg : processGroup cutoff g.1 g.2 with
    | none => rw [hpg] at h; cases h
    | some mb =>
      rw [hpg] at h
      cases hr : loyaltyLoop cutoff rest with
      | none => rw [hr] at h; cases h
      | some res =>
        obtain ⟨bs, c⟩ := res
        rw [hr] at h
        cases mb with
        | none =>
          cases Option.some.inj h
          exact ih _ _ hr
        | some b0 =>
          cases Option.some.inj h
          intro b hb
          rcases List.mem_cons.mp hb with hb | hb
          · subst hb
            exact processGroup_block cutoff g.1 g.2 b hpg
          · exact ih _ _ hr b hb

theorem loyaltyLoop_sum (cutoff : NaiveDate) (groups : List (String × List Position))
    (blocks : List TenureBlock) (cum : Rat)
    (h : loyaltyLoop cutoff groups = some (blocks, cum)) :
    cum = (blocks.map (fun b => b.loyalty_tax_impact)).sum := by
  induction groups generalizing blocks cum with
  | nil =>
    simp only [loyaltyLoop] at h
    cases Option.some.inj h
    simp
  | cons g rest ih =>
    simp only [loyaltyLoop] at h
    cases hpg : processGroup cutoff g.1 g.2 with
    | none => rw [hpg] at h; cases h
    | some mb =>
      rw [hpg] at h
      cases hr : loyaltyLoop cutoff rest with
      | none => rw [hr] at h; cases h
      | some res =>
        obtain ⟨bs, c⟩ := res
        rw [hr] at h
        cases mb with
        | none =>
          cases Option.some.inj h
          exact ih _ _ hr
        | some b0 =>
          cases Option.some.inj h
          simp [ih _ _ hr]

/-! ### C4: every emitted tenure block has tenure above two years and a
    nonnegative loyalty-tax impact -/

/-- C4: calculate_loyalty_tax emits no tenure block for an employer group
    whose tenure is at most 2.0 years (every emitted block records more
    than two years of service), and every emitted block has a nonnegative
    loyalty_tax_impact. -/
theorem loyalty_blocks_tenure_and_impact (ps : List Position) (b : TenureBlock)
    (hb : b ∈ loyaltyBlocks ps) :
    2 < b.years_of_service ∧ 0 ≤ b.loyalty_tax_impact := by
  obtain ⟨blocks, cum, hloop⟩ := loyaltyLoop_total ps
  have hspec := calculate_loyalty_tax_spec ps blocks cum hloop
  unfold loyaltyBlocks at hb
  rw [hspec] at hb
  exact loyaltyLoop_blocks ⟨2024, 12, 31⟩ (groupByEmployer ps) blocks cum hloop b hb

/-! ### C9: the cumulative loyalty tax is the sum of the block impacts -/

/-- C9: for every position list the cumulative_loyalty_tax reported by
    calculate_loyalty_tax equals the sum of loyalty_tax_impact over the
    emitted tenure blocks. -/
theorem cumulative_equals_sum_of_impacts (ps : List Position) :
    loyaltyCumulative ps = ((loyaltyBlocks ps).map (fun b => b.loyalty_tax_impact)).sum := by
  obtain ⟨blocks, cum, hloop⟩ := loyaltyLoop_total ps
  have hspec := calculate_loyalty_tax_spec ps blocks cum hloop
  unfold loyaltyCumulative loyaltyBlocks
  rw [hspec]
  exact loyaltyLoop_sum ⟨2024, 12, 31⟩ (groupByEmployer ps) blocks cum hloop

/-! ### C5: totality of the three entry points -/

theorem avgIncrease_isSome (cutoff : NaiveDate) (ps : List Position) (h : ps ≠ []) :
    (avgIncrease cutoff ps).isSome := by
  unfold avgIncrease
  split_ifs with hlen
  · obtain ⟨la, hl⟩ := Option.isSome_iff_exists.mp (List.getLast?_isSome.mpr h)
    obtain ⟨f, hf⟩ := Option.isSome_iff_exists.mp (List.head?_isSome.mpr h)
    rw [hl, hf]
    rfl
  · rfl

theorem compSummary_isSome (cutoff : NaiveDate) (ps : List Position) :
    (calculate_compensation_summary cutoff ps).isSome := by
  unfold calculate_compensation_summary
  split_ifs with hemp
  · rfl
  · have h : ps ≠ [] := fun hn => hemp (by simp [hn])
    obtain ⟨f, hf⟩ := Option.isSome_iff_exists.mp (List.head?_isSome.mpr h)
    obtain ⟨avg, havg⟩ := Option.isSome_iff_exists.mp (avgIncrease_isSome cutoff ps h)
    rw [hf]
    simp only [havg]
    rfl

theorem calculate_loyalty_tax_isSome (ps : List Position) :
    (calculate_loyalty_tax ps).isSome = true := by
  obtain ⟨blocks, cum, hloop⟩ := loyaltyLoop_total ps
  rw [calculate_loyalty_tax_spec ps blocks cum hloop]
  rfl

theorem generate_resume_export_isSome (ps : List Position) (prof : Option UserProfile) :
    (generate_resume_export ps prof).isSome = true := by
  unfold generate_resume_export
  rw [cutoffDate_eq]
  obtain ⟨cs, hcs⟩ :=
    Option.isSome_iff_exists.mp (compSummary_isSome ⟨2024, 12, 31⟩ ps)
  simp only [hcs]
  rfl

/-- C5: the three entry points are total: for every position list and
    optional profile each returns a report, every internal unwrap being
    unreachable in its failing branch. -/
theorem analysis_functions_total (ps : List Position) (prof : Option UserProfile) :
    (calculate_earnings_analysis ps prof).isSome = true
    ∧ (calculate_loyalty_tax ps).isSome = true
    ∧ (generate_resume_export ps prof).isSome = true :=
  ⟨rfl, calculate_loyalty_tax_isSome ps, generate_resume_export_isSome ps prof⟩

/-! ### The Acme scenario -/

def acmePos1 : Position :=
  { employer_name := "Acme", job_title := "Dev", employment_type := .Permanent
    start_date := ⟨2019, 1, 1⟩, end_date := some ⟨2021, 1, 1⟩, seniority_level := .Mid
    core_responsibilities := "", tools_systems_skills := [], achievements := [] }

def acmePos2 : Position :=
  { employer_name := "Acme", job_title := "Dev", employment_type := .Permanent
    start_date := ⟨2021, 1, 1⟩, end_date := none, seniority_level := .Mid
    core_responsibilities := "", tools_systems_skills := [], achievements := [] }

def acmePositions : List Position := [acmePos1, acmePos2]

def acmeBlock : TenureBlock :=
  { employer_name := "Acme"
    start_date := ⟨2019, 1, 1⟩
    end_date := some ⟨2024, 12, 31⟩
    years_of_service := 8764 / 1461
    actual_progression := 0
    market_expected_progression := 6
    loyalty_tax_impact := 16651600 / 487 }

theorem acme_processGroup :
    processGroup ⟨2024, 12, 31⟩ "Acme" [acmePos1, acmePos2] = some (some acmeBlock) := by
  have hs : sortByStartDate [acmePos1, acmePos2] = [acmePos1, acmePos2] := by decide
  have hd : numDays (⟨2019, 1, 1⟩ : NaiveDate) ⟨2024, 12, 31⟩ = 2191 := by decide
  unfold processGroup
  rw [hs]
  dsimp only [List.head?, List.getLast?, List.getLast, acmePos1, acmePos2, Option.getD]
  rw [hd]
  have hmid : marketGrowthRate .Mid = 0.06 := by
    simp [marketGrowthRate, MARKET_GROWTH_RATES, List.find?]
  rw [if_pos (by norm_num)]
  simp only [base_salary_estimate, hmid, acmeBlock]
  norm_num

theorem acme_loyaltyBlocks : loyaltyBlocks acmePositions = [acmeBlock] := by
  have hg : groupByEmployer acmePositions = [("Acme", [acmePos1, acmePos2])] := by decide
  have hloop : loyaltyLoop ⟨2024, 12, 31⟩ (groupByEmployer acmePositions)
      = some ([acmeBlock], acmeBlock.loyalty_tax_impact + 0) := by
    rw [hg]
    simp only [loyaltyLoop, acme_processGroup]
  unfold loyaltyBlocks
  rw [calculate_loyalty_tax_spec acmePositions [acmeBlock] (acmeBlock.loyalty_tax_impact + 0) hloop]

/-! ### C7: the two-position Acme scenario -/

/-- C7: on the two Acme positions (Mid seniority, first 2019-01-01 to
    2021-01-01, second open-ended from 2021-01-01) calculate_loyalty_tax
    produces exactly one tenure block, for Acme, with tenure 2191 days
    over 365.25 (about 5.997 years), zero actual progression, six percent
    market-expected progression, and impact 95000 times 0.06 times the
    tenure (about 34183). -/
theorem acme_loyalty_scenario :
    loyaltyBlocks acmePositions = [acmeBlock]
    ∧ acmeBlock.employer_name = "Acme"
    ∧ acmeBlock.years_of_service = 8764 / 1461
    ∧ 5.995 < acmeBlock.years_of_service ∧ acmeBlock.years_of_service < 5.999
    ∧ acmeBlock.actual_progression = 0
    ∧ acmeBlock.market_expected_progression = 6
    ∧ acmeBlock.loyalty_tax_impact = 95000 * 0.06 * (8764 / 1461)
    ∧ 34173 < acmeBlock.loyalty_tax_impact ∧ acmeBlock.loyalty_tax_impact < 34193 := by
  refine ⟨acme_loyaltyBlocks, rfl, rfl, ?_, ?_, rfl, ?_, ?_, ?_, ?_⟩ <;>
    norm_num [acmeBlock]

/-- Witness for loyalty_blocks_tenure_and_impact at the Acme block. -/
theorem loyalty_blocks_tenure_and_impact_witness :
    2 < acmeBlock.years_of_service ∧ 0 ≤ acmeBlock.loyalty_tax_impact :=
  loyalty_blocks_tenure_and_impact acmePositions acmeBlock
    (by rw [acme_loyaltyBlocks]; exact List.mem_singleton_self acmeBlock)

/-! ### C8: duration formatting -/

def demoEndedPos : Position :=
  { employer_name := "E1", job_title := "Dev", employment_type := .Permanent
    start_date := ⟨2020, 1, 15⟩, end_date := some ⟨2022, 4, 15⟩, seniority_level := .Mid
    core_responsibilities := "", tools_systems_skills := [], achievements := [] }

def demoOpenPos : Position :=
  { employer_name := "E2", job_title := "Dev", employment_type := .Permanent
    start_date := ⟨2021, 1, 1⟩, end_date := none, seniority_level := .Mid
    core_responsibilities := "", tools_systems_skills := [], achievements := [] }

/-- C8: generate_resume_export formats each ended position from the
    calendar month difference as whole years plus remaining months, an
    open-ended position as month, year and Present; the formatting
    ignores the day fields, and the three quoted examples hold. -/
theorem duration_formatting :
    (∀ (ps : List Position) (prof : Option UserProfile) (r : ResumeExport),
        generate_resume_export ps prof = some r →
          r.career_timeline.map (fun rp => rp.duration)
            = ps.map fun pos =>
                match pos.end_date with
                | some finish => format_duration pos.start_date finish
                | none => formatMonthYear pos.start_date ++ " - Present")
    ∧ format_duration ⟨2020, 1, 15⟩ ⟨2022, 4, 15⟩ = "2y 3m"
    ∧ format_duration ⟨2020, 1, 15⟩ ⟨2020, 6, 15⟩ = "5m"
    ∧ format_duration ⟨2020, 1, 15⟩ ⟨2022, 1, 15⟩ = "2y"
    ∧ (∀ (y1 y2 : Int) (m1 m2 d1 d1' d2 d2' : Nat),
        format_duration ⟨y1, m1, d1⟩ ⟨y2, m2, d2⟩
          = format_duration ⟨y1, m1, d1'⟩ ⟨y2, m2, d2'⟩) := by
  refine ⟨?_, by decide, by decide, by decide, fun _ _ _ _ _ _ _ _ => rfl⟩
  intro ps prof r h
  unfold generate_resume_export at h
  rw [cutoffDate_eq] at h
  dsimp only at h
  obtain ⟨cs, hcs⟩ :=
    Option.isSome_iff_exists.mp (compSummary_isSome ⟨2024, 12, 31⟩ ps)
  rw [hcs] at h
  cases Option.some.inj h
  simp only [List.map_map]
  refine List.map_congr_left fun pos _ => ?_
  simp only [Function.comp_apply, resumePositionOf, durationOf]

/-- Witness for duration_formatting on two concrete positions. -/
theorem duration_formatting_witness :
    (generate_resume_export [demoEndedPos, demoOpenPos] none).map
        (fun r => r.career_timeline.map (fun rp => rp.duration))
      = some ["2y 3m", "Jan 2021 - Present"] := by
  obtain ⟨r, hr⟩ := Option.isSome_iff_exists.mp
    (generate_resume_export_isSome [demoEndedPos, demoOpenPos] none)
  rw [hr]
  simp only [Option.map_some']
  rw [duration_formatting.1 _ _ _ hr]
  decide

/-! ### C2: the average annual increase formula -/

theorem resume_compSummary (ps : List Position) (prof : Option UserProfile)
    (r : ResumeExport) (h : generate_resume_export ps prof = some r) :
    calculate_compensation_summary ⟨2024, 12, 31⟩ ps = some r.compensation_summary := by
  unfold generate_resume_export at h
  rw [cutoffDate_eq] at h
  dsimp only at h
  obtain ⟨cs, hcs⟩ :=
    Option.isSome_iff_exists.mp (compSummary_isSome ⟨2024, 12, 31⟩ ps)
  rw [hcs] at h
  cases Option.some.inj h
  exact hcs

theorem compSummary_avg (cutoff : NaiveDate) (ps : List Position) (cs : CompensationSummary)
    (h : calculate_compensation_summary cutoff ps = some cs) :
    avgIncrease cutoff ps = some cs.average_annual_increase := by
  unfold calculate_compensation_summary at h
  split_ifs at h with hemp
  · cases Option.some.inj h
    have hnil : ps = [] := List.isEmpty_iff.mp hemp
    subst hnil
    rfl
  · cases hf : ps.head? with
    | none => rw [hf] at h; cases h
    | some f =>
      rw [hf] at h
      dsimp only at h
      cases havg : avgIncrease cutoff ps with
      | none => rw [havg] at h; cases h
      | some avg =>
        rw [havg] at h
        cases Option.some.inj h
        rfl

def cexPos1 : Position :=
  { employer_name := "B1", job_title := "Dev", employment_type := .Permanent
    start_date := ⟨2020, 1, 1⟩, end_date := some ⟨2021, 1, 1⟩, seniority_level := .Senior
    core_responsibilities := "", tools_systems_skills := [], achievements := [] }

def cexPos2 : Position :=
  { employer_name := "B2", job_title := "Dev", employment_type := .Permanent
    start_date := ⟨2021, 1, 1⟩, end_date := some ⟨2022, 1, 1⟩, seniority_level := .Entry
    core_responsibilities := "", tools_systems_skills := [], achievements := [] }

def cexPositions : List Position := [cexPos1, cexPos2]

theorem cex_experience :
    calculate_total_experience ⟨2024, 12, 31⟩ cexPositions = 2924 / 1461 := by
  have hd : (cexPositions.map fun p =>
      numDays p.start_date (p.end_date.getD ⟨2024, 12, 31⟩)).sum = 731 := by decide
  simp only [calculate_total_experience, hd]
  norm_num

theorem cex_avgIncrease : avgIncrease ⟨2024, 12, 31⟩ cexPositions = some (36525 / 731) := by
  unfold avgIncrease
  rw [if_pos (by decide), show cexPositions.getLast? = some cexPos2 from by decide,
    show cexPositions.head? = some cexPos1 from by decide]
  dsimp only
  rw [cex_experience]
  rw [if_pos ⟨by norm_num, base_salary_estimate_pos cexPos2⟩]
  norm_num [base_salary_estimate, cexPos1, cexPos2]

/-- Counterexample to C2 as stated: on two positions with list-first base
    120000 (Senior) and list-last base 60000 (Entry), the exported average
    annual increase is the difference divided by the LAST position's base,
    not by the first position's base as the claim says, although every
    hypothesis of the claim holds. -/
theorem avg_increase_divisor_counterexample :
    (generate_resume_export cexPositions none).map
        (fun r => r.compensation_summary.average_annual_increase)
      = some (36525 / 731 : Rat)
    ∧ (36525 / 731 : Rat)
        ≠ (base_salary_estimate cexPos1 - base_salary_estimate cexPos2)
            / base_salary_estimate cexPos1
            / calculate_total_experience ⟨2024, 12, 31⟩ cexPositions * 100
    ∧ 1 < cexPositions.length
    ∧ 0 < base_salary_estimate cexPos1
    ∧ 0 < base_salary_estimate cexPos2
    ∧ 0 < calculate_total_experience ⟨2024, 12, 31⟩ cexPositions := by
  refine ⟨?_, ?_, by decide, base_salary_estimate_pos cexPos1, base_salary_estimate_pos cexPos2,
    by rw [cex_experience]; norm_num⟩
  · obtain ⟨r, hr⟩ := Option.isSome_iff_exists.mp
      (generate_resume_export_isSome cexPositions none)
    rw [hr]
    simp only [Option.map_some']
    have h1 := compSummary_avg ⟨2024, 12, 31⟩ cexPositions r.compensation_summary
      (resume_compSummary cexPositions none r hr)
    rw [cex_avgIncrease] at h1
    rw [← Option.some.inj h1]
  · rw [cex_experience]
    norm_num [base_salary_estimate, cexPos1, cexPos2]

/-- C2 amended: the divisor is the LAST list position's base salary
    estimate (the code variable first_salary names the chronologically
    first, list-last, position).  For at least two positions the exported
    average annual increase is ((first base - last base) / last base) /
    total experience years times 100 when the experience years and the
    divisor are positive, and 0 otherwise; single-position lists give 0. -/
theorem avg_increase_formula_amended (ps : List Position) (prof : Option UserProfile)
    (r : ResumeExport) (h : generate_resume_export ps prof = some r) :
    (ps.length ≤ 1 → r.compensation_summary.average_annual_increase = 0)
    ∧ (∀ pFirst pLast, 1 < ps.length → ps.head? = some pFirst → ps.getLast? = some pLast →
        r.compensation_summary.average_annual_increase
          = if 0 < calculate_total_experience ⟨2024, 12, 31⟩ ps
                ∧ 0 < base_salary_estimate pLast
            then (base_salary_estimate pFirst - base_salary_estimate pLast)
                   / base_salary_estimate pLast
                   / calculate_total_experience ⟨2024, 12, 31⟩ ps * 100
            else 0) := by
  have havg := compSummary_avg ⟨2024, 12, 31⟩ ps r.compensation_summary
    (resume_compSummary ps prof r h)
  constructor
  · intro hlen
    unfold avgIncrease at havg
    rw [if_neg (by omega)] at havg
    exact (Option.some.inj havg).symm
  · intro pFirst pLast hlen hf hl
    unfold avgIncrease at havg
    rw [if_pos hlen, hl, hf] at havg
    dsimp only at havg
    exact (Option.some.inj havg).symm

/-- Witness for avg_increase_formula_amended on the two concrete positions. -/
theorem avg_increase_formula_amended_witness :
    (generate_resume_export cexPositions none).map
        (fun r => r.compensation_summary.average_annual_increase)
      = some ((base_salary_estimate cexPos1 - base_salary_estimate cexPos2)
                / base_salary_estimate cexPos2
                / calculate_total_experience ⟨2024, 12, 31⟩ cexPositions * 100) := by
  obtain ⟨r, hr⟩ := Option.isSome_iff_exists.mp
    (generate_resume_export_isSome cexPositions none)
  rw [hr]
  simp only [Option.map_some']
  have h := (avg_increase_formula_amended cexPositions none r hr).2 cexPos1 cexPos2
    (by decide) (by decide) (by decide)
  rw [h, if_pos ⟨by rw [cex_experience]; norm_num, base_salary_estimate_pos cexPos2⟩]

/-! ### C3: the overtime-heavy insight -/

theorem has_overtime_iff (ps : List Position) :
    has_overtime_heavy_earnings ps = true
      ↔ ∃ p ∈ ps, (1.2 : Rat) < estimate_overtime_multiplier p none := by
  simp [has_overtime_heavy_earnings, List.any_eq_true]

theorem percentileInsights_not_overtime (p c : Rat) (ind : String) (i : EarningsInsight)
    (hi : i ∈ percentileInsights p c ind) : i.category ≠ .OvertimeHeavy := by
  unfold percentileInsights at hi
  split_ifs at hi
  · rw [List.mem_singleton] at hi
    subst hi
    simp [underpaidInsight]
  · rw [List.mem_singleton] at hi
    subst hi
    simp [overpaidInsight]
  · cases hi

/-- C3 amended: with a profile present, calculate_earnings_analysis emits
    an Overtime-Heavy insight (confidence 0.85, quoting the current
    effective hourly rate) exactly when some position's overtime
    multiplier evaluated WITHOUT the profile (the seniority base factor
    alone, as has_overtime_heavy_earnings passes None) exceeds 1.2; the
    industry and personal factors of the supplied profile are ignored by
    this check. -/
theorem overtime_insight_iff_amended (ps : List Position) (prof : UserProfile)
    (a : EarningsAnalysis) (h : calculate_earnings_analysis ps (some prof) = some a) :
    (∃ p ∈ ps, (1.2 : Rat) < estimate_overtime_multiplier p none)
      ↔ ∃ i ∈ a.insights,
          i.category = InsightCategory.OvertimeHeavy
          ∧ i.confidence_level = 0.85
          ∧ i.data_points.head?
              = some ("Effective hourly rate: $"
                  ++ fmt2 a.current_effective_hourly_rate ++ "/hr") := by
  rw [calculate_earnings_analysis_eq] at h
  cases Option.some.inj h
  show _ ↔ ∃ i ∈ (earningsBody ps (some prof)).insights, _
  dsimp only [earningsBody, insightsFor]
  constructor
  · intro hex
    have hot : has_overtime_heavy_earnings ps = true := (has_overtime_iff ps).mpr hex
    rw [if_pos hot]
    exact ⟨overtimeInsight (currentEarnings ps (some prof)).2,
      List.mem_append_left _ (List.mem_singleton_self _), rfl, rfl, rfl⟩
  · rintro ⟨i, hi, hcat, -, -⟩
    rcases List.mem_append.mp hi with hi | hi
    · by_cases hot : has_overtime_heavy_earnings ps = true
      · exact (has_overtime_iff ps).mp hot
      · rw [if_neg hot] at hi
        cases hi
    · exact absurd hcat (percentileInsights_not_overtime _ _ _ i hi)

def cexProfile : UserProfile :=
  { first_name := "Ash", last_name := "Lee", date_of_birth := ⟨1990, 1, 1⟩
    state := .WA, industry := "Mining"
    career_preferences :=
      { employment_type_preference := .Permanent
        fifo_tolerance := .None
        travel_tolerance := .None
        overtime_appetite := .Minimal
        privacy_acknowledged := true
        disclaimer_acknowledged := true } }

def cexSeniorPos : Position :=
  { employer_name := "M1", job_title := "Engineer", employment_type := .Permanent
    start_date := ⟨2020, 1, 1⟩, end_date := none, seniority_level := .Senior
    core_responsibilities := "", tools_systems_skills := [], achievements := [] }

theorem cex_mult_with_profile :
    estimate_overtime_multiplier cexSeniorPos (some cexProfile) = 1.56 := by
  rw [show estimate_overtime_multiplier cexSeniorPos (some cexProfile)
      = baseMultiplier cexSeniorPos.seniority_level * industryAdjustment (some cexProfile)
          * personalAdjustment (some cexProfile) from rfl]
  have hind : industryAdjustment (some cexProfile) = 1.30 := by
    simp [industryAdjustment,
      show cexProfile.industry = "Mining" from rfl,
      show containsSub (lowerChars "Mining") ['m','i','n','i','n','g'] = true from by decide]
  have hpers : personalAdjustment (some cexProfile) = 1.0 := rfl
  rw [hind, hpers, show baseMultiplier cexSeniorPos.seniority_level = 1.20 from rfl]
  norm_num

theorem cex_mult_without_profile :
    estimate_overtime_multiplier cexSeniorPos none = 1.2 := by
  rw [show estimate_overtime_multiplier cexSeniorPos none
      = baseMultiplier cexSeniorPos.seniority_level * industryAdjustment none
          * personalAdjustment none from rfl]
  norm_num [industryAdjustment, personalAdjustment, baseMultiplier, cexSeniorPos]

/-- Counterexample to C3 as stated: with a Mining profile the overtime
    multiplier of the Senior position as defined in section 4.1 (with the
    industry factor) is 1.56, above 1.2, yet no Overtime-Heavy insight is
    emitted, because has_overtime_heavy_earnings evaluates the multiplier
    with no profile. -/
theorem overtime_insight_profile_counterexample :
    (1.2 : Rat) < estimate_overtime_multiplier cexSeniorPos (some cexProfile)
    ∧ (calculate_earnings_analysis [cexSeniorPos] (some cexProfile)).map
        (fun a => a.insights.any fun i =>
          decide (i.category = InsightCategory.OvertimeHeavy))
      = some false := by
  constructor
  · rw [cex_mult_with_profile]; norm_num
  · rw [calculate_earnings_analysis_eq]
    simp only [Option.map_some', Option.some.injEq]
    have hot : has_overtime_heavy_earnings [cexSeniorPos] = false := by
      simp [has_overtime_heavy_earnings, cex_mult_without_profile]
    dsimp only [earningsBody, insightsFor]
    rw [if_neg (by rw [hot]; exact Bool.false_ne_true)]
    rw [List.nil_append]
    have hct : (currentEarnings [cexSeniorPos] (some cexProfile)).1 = 187200 := by
      rw [show (currentEarnings [cexSeniorPos] (some cexProfile)).1
          = base_salary_estimate cexSeniorPos
              * estimate_overtime_multiplier cexSeniorPos (some cexProfile) from rfl]
      rw [cex_mult_with_profile]
      norm_num [base_salary_estimate, cexSeniorPos]
    have hmed : calculate_industry_median "Mining" = 125000 := by
      simp [calculate_industry_median,
        show containsSub (lowerChars "Mining") ['m','i','n','i','n','g'] = true from by decide]
      norm_num
    have hpct : calculate_income_percentile
        (currentEarnings [cexSeniorPos] (some cexProfile)).1 cexProfile.industry
          cexProfile.state = 90 := by
      rw [hct]
      simp only [calculate_income_percentile]
      rw [show cexProfile.industry = "Mining" from rfl, hmed]
      rw [if_neg (by norm_num), if_neg (by norm_num), if_neg (by norm_num)]
      norm_num
    rw [hpct]
    have hperc : percentileInsights 90 (currentEarnings [cexSeniorPos] (some cexProfile)).1
        cexProfile.industry
          = [overpaidInsight 90 (currentEarnings [cexSeniorPos] (some cexProfile)).1] := by
      unfold percentileInsights
      rw [if_neg (by norm_num), if_pos (by norm_num)]
    rw [hperc]
    rfl

def demoLeadPos : Position :=
  { employer_name := "L1", job_title := "Lead", employment_type := .Permanent
    start_date := ⟨2020, 1, 1⟩, end_date := none, seniority_level := .Lead
    core_responsibilities := "", tools_systems_skills := [], achievements := [] }

/-- Witness for overtime_insight_iff_amended: a Lead position (base
    factor 1.25) makes the insight appear. -/
theorem overtime_insight_iff_amended_witness :
    (calculate_earnings_analysis [demoLeadPos] (some cexProfile)).map
        (fun a => a.insights.any fun i =>
          decide (i.category = InsightCategory.OvertimeHeavy)
            && decide (i.confidence_level = 0.85)
            && decide (i.data_points.head?
                = some ("Effective hourly rate: $"
                    ++ fmt2 a.current_effective_hourly_rate ++ "/hr")))
      = some true := by
  have hmult : (1.2 : Rat) < estimate_overtime_multiplier demoLeadPos none := by
    rw [show estimate_overtime_multiplier demoLeadPos none
        = baseMultiplier demoLeadPos.seniority_level * industryAdjustment none
            * personalAdjustment none from rfl]
    norm_num [industryAdjustment, personalAdjustment, baseMultiplier, demoLeadPos]
  obtain ⟨i, hi, h1, h2, h3⟩ :=
    (overtime_insight_iff_amended [demoLeadPos] cexProfile _
        (calculate_earnings_analysis_eq [demoLeadPos] (some cexProfile))).mp
      ⟨demoLeadPos, List.mem_singleton_self _, hmult⟩
  rw [calculate_earnings_analysis_eq]
  simp only [Option.map_some', Option.some.injEq]
  refine List.any_eq_true.mpr ⟨i, hi, ?_⟩
  rw [decide_eq_true h1, decide_eq_true h2, decide_eq_true h3]
  rfl
